import Mathlib

/-!
The node `ps6_ariac`: conveyor sequencing.

A shallow embedding of `src/ps6_ariac.cpp`: the two global flags, the logical
camera callback, `start_competition` and `main`, together with the floating
point comparison the callback performs.

Modelling conventions.

* A C++ `double`/`float` value is an `FP`: NaN, a signed infinity, or a finite
  value given by the rational number it denotes.  `toFloat` is the conversion
  `double -> float` that the initialisation `float z_coord = ...z;` performs
  (IEEE-754 round to nearest, ties to even, the default rounding mode).
  `pose.position.z` is a `float64` field of `geometry_msgs/Point`.
* The ROS services are the environment: `Env` records what each `exists()`
  returns and what `response.success` holds after each `call`.
* Callbacks only run inside `ros::spinOnce()`.  The camera subscription has
  queue size 1, so one `spinOnce` hands at most one message to the callback:
  a `Tick` is `Option LogicalCameraImage`.
* `main` is run against a finite prefix of the feed.  If the prefix is used up
  while `box_under_camera` is still false the run is still inside the
  `while` loop (`Outcome.spinning`); otherwise `main` goes on and returns.
-/

namespace Ps6Ariac

/-! ## Floating point values -/

/-- Values of an IEEE-754 binary floating point type, finite ones as the rational they denote. -/
inductive FP where
  | nan : FP
  | inf (neg : Bool) : FP
  | fin (q : ℚ) : FP
  deriving DecidableEq

/-- The C++ operator `<` on floating point values: false as soon as one side is NaN. -/
def FP.lt : FP → FP → Bool
  | FP.nan, _ => false
  | _, FP.nan => false
  | FP.inf true, FP.inf true => false
  | FP.inf true, _ => true
  | FP.inf false, _ => false
  | FP.fin _, FP.inf n => !n
  | FP.fin a, FP.fin b => decide (a < b)

/-- The C++ operator `>`: `a > b` is `b < a`. -/
def FP.gt (a b : FP) : Bool := FP.lt b a

/-- Unary minus. -/
def FP.neg : FP → FP
  | FP.nan => FP.nan
  | FP.inf n => FP.inf (!n)
  | FP.fin q => FP.fin (-q)

/-- The value of a `double` given by its 64 bits (sign, 11 exponent bits, 52 fraction bits). -/
def decode64 (bits : ℕ) : FP :=
  let s : ℕ := bits / 2 ^ 63 % 2
  let e : ℕ := bits / 2 ^ 52 % 2 ^ 11
  let f : ℕ := bits % 2 ^ 52
  let m : ℕ := 2 ^ 52 + f
  let sign : ℚ := if s = 1 then -1 else 1
  if e = 2047 then (if f = 0 then FP.inf (decide (s = 1)) else FP.nan)
  else if e = 0 then FP.fin (sign * (f : ℚ) / 2 ^ 1074)
  else if 1075 ≤ e then FP.fin (sign * (m : ℚ) * 2 ^ (e - 1075))
  else FP.fin (sign * (m : ℚ) / 2 ^ (1075 - e))

/-- Round a rational to the nearest integer, a tie going to the even neighbour. -/
def roundHalfEven (x : ℚ) : ℤ :=
  let f := ⌊x⌋
  if x - f < 1 / 2 then f
  else if 1 / 2 < x - f then f + 1
  else if f % 2 = 0 then f else f + 1

/-- Round a non-negative rational to binary32 precision (24 significant bits, exponent at
least -126), with unbounded exponent above. -/
def roundMag32 (a : ℚ) : ℚ :=
  let e : ℤ := max (Int.log 2 a) (-126)
  let u : ℚ := 2 ^ (e - 23)
  (roundHalfEven (a / u) : ℚ) * u

/-- The conversion `double -> float`: round to nearest binary32 value, ties to even; what
rounds to `2^128` or beyond becomes an infinity. -/
def toFloat : FP → FP
  | FP.nan => FP.nan
  | FP.inf n => FP.inf n
  | FP.fin q =>
    let r := roundMag32 |q|
    if (2 : ℚ) ^ 128 ≤ r then FP.inf (decide (q < 0))
    else FP.fin (if q < 0 then -r else r)

/-- The `double` literal `0.01`: the binary64 value nearest to 1/100, bits `0x3F847AE147AE147B`. -/
def lit_0_01 : FP := FP.fin (5764607523034235 / 2 ^ 59)

/-! ## Messages and global state -/

/-- An `osrf_gear::Model` as far as the node reads it: `pose.position.z`. -/
structure Model where
  z : FP

/-- An `osrf_gear::LogicalCameraImage`: the models in view. -/
structure LogicalCameraImage where
  models : List Model

/-- The two global flags of the node. -/
structure Globals where
  conveyor_started : Bool
  box_under_camera : Bool
  deriving DecidableEq

/-- The test `z_coord < 0.01 && z_coord > -0.01` on the `float` local `z_coord`, which is
promoted back to `double` (exactly) for the comparison with the `double` literals. -/
def near_zero (z : FP) : Bool :=
  let z_coord := toFloat z
  FP.lt z_coord lit_0_01 && FP.gt z_coord (FP.neg lit_0_01)

/-- `MyCompetitionClass::logical_camera_callback`. -/
def logical_camera_callback (g : Globals) (image_msg : LogicalCameraImage) : Globals :=
  if g.conveyor_started then
    match image_msg.models with
    | [] => g
    | m :: _ =>
      if near_zero m.z then { g with box_under_camera := true } else g
  else g

/-- The largest magnitude that `toFloat` still rounds to the binary32 value `10737418 / 2^30`
(the `float` nearest to 1/100): the midpoint to the next `float`, a tie going to the even
significand `10737418`. -/
def tolerance32 : ℚ := 21474837 / 2 ^ 31

/-- A coordinate that is finite and of magnitude at most `tolerance32`. -/
def within_tolerance32 : FP → Prop
  | FP.fin q => |q| ≤ tolerance32
  | _ => False

/-! ## The environment and what a run does -/

/-- What the ROS master and the three services answer during one run: the result of each
`exists()` and the value of `response.success` after each `call` (the three conveyor calls
in program order: on, off, on again).  The fields are independent of one another. -/
structure Env where
  start_exists : Bool
  start_success : Bool
  start_message : String
  conveyor_exists : Bool
  conveyor_on_success : Bool
  conveyor_off_success : Bool
  conveyor_resume_success : Bool
  drone_exists : Bool
  drone_success : Bool

/-- The three services the node talks to. -/
inductive Service where
  | start_competition
  | conveyor_control
  | drone
  deriving DecidableEq

/-- The request part of a service call: `std_srvs::Trigger`,
`osrf_gear::ConveyorBeltControl` (field `power`), `osrf_gear::DroneControl`
(field `shipment_type`). -/
inductive Request where
  | trigger
  | conveyor (power : ℚ)
  | drone (shipment_type : String)
  deriving DecidableEq

/-- What `main` does that can be observed from outside, in program order. -/
inductive Event where
  | info (text : String)
  | error (text : String)
  | exists_ (svc : Service) (result : Bool)
  | waitForExistence (svc : Service)
  | call (req : Request)
  | sleep (seconds : ℕ)
  deriving DecidableEq

/-- The service calls of a trace, in order. -/
def gatewayCalls (tr : List Event) : List Request :=
  tr.filterMap fun ev =>
    match ev with
    | Event.call req => some req
    | _ => none

/-- The `osrf_gear::DroneControl` request as `main` leaves it: default constructed, no field
is ever assigned, so `shipment_type` is the empty string. -/
def drone_srv_request : Request := Request.drone ""

/-- `start_competition`. -/
def start_competition (env : Env) : List Event :=
  [Event.exists_ Service.start_competition env.start_exists]
  ++ (if !env.start_exists then
        [Event.info "Waiting for the competition to be ready...",
         Event.waitForExistence Service.start_competition,
         Event.info "Competition is now ready."]
      else [])
  ++ [Event.info "Requesting competition start...", Event.call Request.trigger]
  ++ (if !env.start_success then
        [Event.error ("Failed to start the competition: " ++ env.start_message)]
      else [Event.info "Competition started!"])

/-- What one `ros::spinOnce()` finds in the camera subscription queue (size 1). -/
abbrev Tick := Option LogicalCameraImage

/-- One `ros::spinOnce()`: the pending camera message, if any, goes to the callback. -/
def spinOnce (g : Globals) : Tick → Globals
  | none => g
  | some image_msg => logical_camera_callback g image_msg

/-- State of the loop `while (!box_under_camera) ros::spinOnce();` once the given feed has
been used: the globals, how many times `spinOnce` ran, and whether the loop was left. -/
structure LoopResult where
  globals : Globals
  spins : ℕ
  exited : Bool

/-- The loop `while (!box_under_camera) { ros::spinOnce(); }` run on a finite feed. -/
def wait_loop : Globals → List Tick → LoopResult
  | g, [] => ⟨g, 0, g.box_under_camera⟩
  | g, t :: rest =>
    if g.box_under_camera then ⟨g, 0, true⟩
    else
      let r := wait_loop (spinOnce g t) rest
      ⟨r.globals, r.spins + 1, r.exited⟩

/-- How far a run of `main` got. -/
inductive Outcome where
  | spinning
  | returned (code : ℤ)
  deriving DecidableEq

/-- A run of `main`: what it did, the globals, the number of `spinOnce` calls, the outcome. -/
structure Run where
  trace : List Event
  globals : Globals
  spins : ℕ
  outcome : Outcome

/-- The part of `main` up to and including the first conveyor call (lines 203-227). -/
def main_start (env : Env) : List Event :=
  [Event.info "Setup complete."]
  ++ start_competition env
  ++ [Event.exists_ Service.conveyor_control env.conveyor_exists]
  ++ (if !env.conveyor_exists then
        [Event.info "Waiting for the conveyor client to open...",
         Event.waitForExistence Service.conveyor_control,
         Event.info "Conveyor client is now ready."]
      else [])
  ++ [Event.info "Requesting conveyor belt start...",
      Event.info "Waiting for a bit beforehand...",
      Event.sleep 5,
      Event.call (Request.conveyor 100)]
  ++ (if !env.conveyor_on_success then [Event.error "Failed to start the conveyor belt."]
      else [Event.info "Conveyor belt started!"])

/-- The part of `main` after the wait loop (lines 234-295). -/
def main_finish (env : Env) : List Event :=
  [Event.info "Stopping the conveyor belt...", Event.call (Request.conveyor 0)]
  ++ (if !env.conveyor_off_success then [Event.error "Failed to stop the conveyor belt."]
      else [Event.info "Conveyor belt stopped!"])
  ++ [Event.info "Waiting five seconds.",
      Event.sleep 5,
      Event.info "Resuming conveyor belt until an order has arrived for drone.",
      Event.call (Request.conveyor 100)]
  ++ (if !env.conveyor_resume_success then [Event.error "Failed to stop the conveyor belt."]
      else [Event.info "Conveyor belt stopped!"])
  ++ [Event.info "Waiting for 15 seconds for drone can pick up shipment.",
      Event.sleep 15,
      Event.info "Sending drone to pick up shipment.",
      Event.exists_ Service.drone env.drone_exists]
  ++ (if env.drone_exists then
        [Event.info "Waiting for the drone client to open...",
         Event.waitForExistence Service.drone,
         Event.info "Drone client is now ready."]
      else [])
  ++ [Event.info "Requesting drone...", Event.call drone_srv_request]
  ++ (if !env.drone_success then [Event.error "Failed to start the drone."]
      else [Event.info "Drone started!"])
  ++ [Event.info "Waiting for drone to collect shipment.",
      Event.sleep 15,
      Event.info "Success."]

/-- The globals when `main` starts: both flags are initialised to `false`. -/
def initial_globals : Globals := ⟨false, false⟩

/-- `main`, run against a finite feed of `spinOnce` ticks. -/
def main (env : Env) (feed : List Tick) : Run :=
  let g : Globals :=
    if !env.conveyor_on_success then initial_globals
    else { initial_globals with conveyor_started := true }
  let r := wait_loop g feed
  if r.exited then ⟨main_start env ++ main_finish env, r.globals, r.spins, Outcome.returned 0⟩
  else ⟨main_start env, r.globals, r.spins, Outcome.spinning⟩

/-- Whether a tick makes the callback see a first model that passes the test. -/
def detects : Tick → Bool
  | none => false
  | some image_msg =>
    match image_msg.models with
    | [] => false
    | m :: _ => near_zero m.z

/-- A feed of camera messages with one model each, at the given coordinates. -/
def observations (zs : List FP) : List Tick :=
  zs.map fun z => some ⟨[⟨z⟩]⟩

/-! ## Concrete inputs -/

/-- An environment in which every service is reachable and accepts every call. -/
def env_all_ok : Env :=
  { start_exists := true, start_success := true, start_message := "",
    conveyor_exists := true, conveyor_on_success := true, conveyor_off_success := true,
    conveyor_resume_success := true, drone_exists := true, drone_success := true }

/-- The `double` nearest to `0.01` (the value a publisher gets from writing `z: 0.01`). -/
def double_0_01 : FP := decode64 0x3F847AE147AE147B

/-- The `double` nearest to `0.005`. -/
def double_0_005 : FP := decode64 0x3F747AE147AE147B

/-- The `double` `0.5`. -/
def double_0_5 : FP := decode64 0x3FE0000000000000

/-- The `double` nearest to `0.2`. -/
def double_0_2 : FP := decode64 0x3FC999999999999A

/-- The `double` nearest to `0.009`. -/
def double_0_009 : FP := decode64 0x3F826E978D4FDF3B

/-- The `double` nearest to `0.3`. -/
def double_0_3 : FP := decode64 0x3FD3333333333333

/-! ## Rounding lemmas -/

theorem roundHalfEven_le_of_le (x : ℚ) (N : ℤ) (h : x ≤ N) : roundHalfEven x ≤ N := by
  have hf1 : (⌊x⌋ : ℚ) ≤ x := Int.floor_le x
  have hfN : ⌊x⌋ ≤ N := by exact_mod_cast hf1.trans h
  unfold roundHalfEven
  simp only
  split_ifs with h1 h2 h3
  · exact hfN
  · have : (⌊x⌋ : ℚ) < N := by linarith
    have : ⌊x⌋ < N := by exact_mod_cast this
    omega
  · exact hfN
  · have : (⌊x⌋ : ℚ) < N := by linarith
    have : ⌊x⌋ < N := by exact_mod_cast this
    omega

theorem le_roundHalfEven_of_le (x : ℚ) (N : ℤ) (h : (N : ℚ) ≤ x) : N ≤ roundHalfEven x := by
  have hfN : N ≤ ⌊x⌋ := Int.le_floor.mpr h
  unfold roundHalfEven
  simp only
  split_ifs <;> omega

theorem roundHalfEven_le_of_le_half (x : ℚ) (k : ℤ) (hk : k % 2 = 0)
    (h : x ≤ (k : ℚ) + 1 / 2) : roundHalfEven x ≤ k := by
  have hf1 : (⌊x⌋ : ℚ) ≤ x := Int.floor_le x
  have hfk : ⌊x⌋ ≤ k := by
    have : (⌊x⌋ : ℚ) < (k : ℚ) + 1 := by linarith
    have : ⌊x⌋ < k + 1 := by exact_mod_cast this
    omega
  unfold roundHalfEven
  simp only
  split_ifs with h1 h2 h3
  · exact hfk
  · have : (⌊x⌋ : ℚ) < k := by linarith
    have : ⌊x⌋ < k := by exact_mod_cast this
    omega
  · exact hfk
  · rcases lt_or_eq_of_le hfk with hlt | heq
    · omega
    · rw [heq] at h3
      exact absurd hk h3

theorem lt_roundHalfEven_of_half_lt (x : ℚ) (k : ℤ)
    (h : (k : ℚ) + 1 / 2 < x) : k + 1 ≤ roundHalfEven x := by
  have hf2 : x < (⌊x⌋ : ℚ) + 1 := Int.lt_floor_add_one x
  have hfk : k ≤ ⌊x⌋ := by
    have : (k : ℚ) < (⌊x⌋ : ℚ) + 1 := by linarith
    have : k < ⌊x⌋ + 1 := by exact_mod_cast this
    omega
  unfold roundHalfEven
  simp only
  split_ifs with h1 h2 h3
  · have : (k : ℚ) < ⌊x⌋ := by linarith
    have : k < ⌊x⌋ := by exact_mod_cast this
    omega
  · omega
  · have : (k : ℚ) < ⌊x⌋ := by linarith
    have : k < ⌊x⌋ := by exact_mod_cast this
    omega
  · omega

theorem lt_two_zpow_log_succ (a : ℚ) : a < (2 : ℚ) ^ (Int.log 2 a + 1) := by
  have h := Int.lt_zpow_succ_log_self (R := ℚ) (b := 2) (by norm_num) a
  simpa using h

theorem two_zpow_log_le (a : ℚ) (ha : 0 < a) : (2 : ℚ) ^ Int.log 2 a ≤ a := by
  have h := Int.zpow_log_le_self (R := ℚ) (b := 2) (by norm_num) ha
  simpa using h

theorem log_lt_of_lt_two_zpow (a : ℚ) (ha : 0 < a) (k : ℤ) (h : a < (2 : ℚ) ^ k) :
    Int.log 2 a < k := by
  have h2 := Int.lt_zpow_iff_log_lt (R := ℚ) (b := 2) (by norm_num) (x := k) ha
  simp only [Nat.cast_ofNat] at h2
  exact h2.mp h

theorem le_log_of_two_zpow_le (a : ℚ) (ha : 0 < a) (k : ℤ) (h : (2 : ℚ) ^ k ≤ a) :
    k ≤ Int.log 2 a := by
  have h2 := Int.zpow_le_iff_le_log (R := ℚ) (b := 2) (by norm_num) (x := k) ha
  simp only [Nat.cast_ofNat] at h2
  exact h2.mp h

theorem roundMag32_zero : roundMag32 0 = 0 := by
  simp [roundMag32, roundHalfEven]

theorem roundMag32_nonneg (a : ℚ) (ha : 0 ≤ a) : 0 ≤ roundMag32 a := by
  unfold roundMag32
  simp only
  have hu : (0 : ℚ) < 2 ^ (max (Int.log 2 a) (-126) - 23) := zpow_pos (by norm_num) _
  have hx : ((0 : ℤ) : ℚ) ≤ a / 2 ^ (max (Int.log 2 a) (-126) - 23) := by
    simpa using div_nonneg ha hu.le
  have hr := le_roundHalfEven_of_le _ 0 hx
  have hr2 : (0 : ℚ) ≤ (roundHalfEven (a / 2 ^ (max (Int.log 2 a) (-126) - 23)) : ℚ) := by
    exact_mod_cast hr
  exact mul_nonneg hr2 hu.le

/-- Rounding never leaves the binade: the result is at most the next power of two. -/
theorem roundMag32_le_two_zpow (a : ℚ) (e : ℤ) (he : max (Int.log 2 a) (-126) = e) :
    roundMag32 a ≤ (2 : ℚ) ^ (e + 1) := by
  unfold roundMag32
  simp only [he]
  have hu : (0 : ℚ) < 2 ^ (e - 23) := zpow_pos (by norm_num) _
  have ha : a < (2 : ℚ) ^ (e + 1) := by
    refine lt_of_lt_of_le (lt_two_zpow_log_succ a) ?_
    apply zpow_le_zpow_right₀ (by norm_num)
    have := le_max_left (Int.log 2 a) (-126)
    omega
  have hsplit : (2 : ℚ) ^ (e + 1) = 2 ^ (24 : ℤ) * 2 ^ (e - 23) := by
    rw [← zpow_add₀ (by norm_num : (2 : ℚ) ≠ 0)]
    congr 1
    ring
  have hx : a / 2 ^ (e - 23) ≤ ((2 ^ 24 : ℤ) : ℚ) := by
    rw [div_le_iff₀ hu]
    have : ((2 ^ 24 : ℤ) : ℚ) = 2 ^ (24 : ℤ) := by norm_num
    rw [this, ← hsplit]
    exact ha.le
  have hr := roundHalfEven_le_of_le _ _ hx
  have hr2 : (roundHalfEven (a / 2 ^ (e - 23)) : ℚ) ≤ 2 ^ (24 : ℤ) := by
    have : ((2 ^ 24 : ℤ) : ℚ) = 2 ^ (24 : ℤ) := by norm_num
    rw [← this]
    exact_mod_cast hr
  rw [hsplit]
  exact mul_le_mul_of_nonneg_right hr2 hu.le

/-- Rounding never leaves the binade: a normal value rounds to at least its power of two. -/
theorem two_zpow_le_roundMag32 (a : ℚ) (ha : 0 < a) (h : -126 ≤ Int.log 2 a) :
    (2 : ℚ) ^ Int.log 2 a ≤ roundMag32 a := by
  unfold roundMag32
  simp only [max_eq_left h]
  have hu : (0 : ℚ) < 2 ^ (Int.log 2 a - 23) := zpow_pos (by norm_num) _
  have hsplit : (2 : ℚ) ^ (Int.log 2 a) = 2 ^ (23 : ℤ) * 2 ^ (Int.log 2 a - 23) := by
    rw [← zpow_add₀ (by norm_num : (2 : ℚ) ≠ 0)]
    congr 1
    ring
  have h23 : ((2 ^ 23 : ℤ) : ℚ) = 2 ^ (23 : ℤ) := by norm_num
  have hx : ((2 ^ 23 : ℤ) : ℚ) ≤ a / 2 ^ (Int.log 2 a - 23) := by
    rw [le_div_iff₀ hu, h23, ← hsplit]
    exact two_zpow_log_le a ha
  have hr := le_roundHalfEven_of_le _ _ hx
  have hr2 : (2 : ℚ) ^ (23 : ℤ) ≤ (roundHalfEven (a / 2 ^ (Int.log 2 a - 23)) : ℚ) := by
    rw [← h23]
    exact_mod_cast hr
  rw [hsplit]
  exact mul_le_mul_of_nonneg_right hr2 hu.le

theorem roundMag32_le_of_lt_small (a : ℚ) (ha : 0 ≤ a) (h : a < (2 : ℚ) ^ (-7 : ℤ)) :
    roundMag32 a ≤ (2 : ℚ) ^ (-7 : ℤ) := by
  rcases eq_or_lt_of_le ha with h0 | hpos
  · rw [← h0, roundMag32_zero]
    exact (zpow_pos (by norm_num) _).le
  · have hL := log_lt_of_lt_two_zpow a hpos (-7) h
    have he : max (Int.log 2 a) (-126) + 1 ≤ -7 := by
      have : max (Int.log 2 a) (-126) ≤ -8 := max_le (by omega) (by norm_num)
      omega
    refine (roundMag32_le_two_zpow a _ rfl).trans ?_
    exact zpow_le_zpow_right₀ (by norm_num) he

theorem log_eq_neg_seven (a : ℚ) (h1 : (2 : ℚ) ^ (-7 : ℤ) ≤ a) (h2 : a < (2 : ℚ) ^ (-6 : ℤ)) :
    Int.log 2 a = -7 := by
  have hpos : 0 < a := lt_of_lt_of_le (zpow_pos (by norm_num) _) h1
  have hA := le_log_of_two_zpow_le a hpos (-7) h1
  have hB := log_lt_of_lt_two_zpow a hpos (-6) h2
  omega

theorem roundMag32_binade_neg_seven (a : ℚ) (h1 : (2 : ℚ) ^ (-7 : ℤ) ≤ a)
    (h2 : a < (2 : ℚ) ^ (-6 : ℤ)) :
    roundMag32 a = (roundHalfEven (a * 2 ^ 30) : ℚ) / 2 ^ 30 := by
  unfold roundMag32
  simp only [log_eq_neg_seven a h1 h2]
  have hu : (2 : ℚ) ^ (max (-7 : ℤ) (-126) - 23) = 1 / 2 ^ 30 := by norm_num
  rw [hu, div_div_eq_mul_div, div_one, mul_one_div]

theorem roundMag32_le_of_le_tolerance (a : ℚ) (ha : 0 ≤ a) (h : a ≤ tolerance32) :
    roundMag32 a ≤ 10737418 / 2 ^ 30 := by
  rcases lt_or_le a ((2 : ℚ) ^ (-7 : ℤ)) with hs | hs
  · refine (roundMag32_le_of_lt_small a ha hs).trans ?_
    norm_num
  · have h2 : a < (2 : ℚ) ^ (-6 : ℤ) := lt_of_le_of_lt h (by norm_num [tolerance32])
    rw [roundMag32_binade_neg_seven a hs h2]
    have hx : a * 2 ^ 30 ≤ ((10737418 : ℤ) : ℚ) + 1 / 2 := by
      have : a * 2 ^ 30 ≤ tolerance32 * 2 ^ 30 :=
        mul_le_mul_of_nonneg_right h (by norm_num)
      refine this.trans ?_
      norm_num [tolerance32]
    have hr := roundHalfEven_le_of_le_half _ 10737418 (by norm_num) hx
    have hr2 : (roundHalfEven (a * 2 ^ 30) : ℚ) ≤ 10737418 := by exact_mod_cast hr
    exact div_le_div_of_nonneg_right hr2 (by norm_num)

theorem le_roundMag32_of_tolerance_lt (a : ℚ) (h : tolerance32 < a) :
    10737419 / 2 ^ 30 ≤ roundMag32 a := by
  have h7 : (2 : ℚ) ^ (-7 : ℤ) ≤ a := le_of_lt (lt_of_le_of_lt (by norm_num [tolerance32]) h)
  have hpos : 0 < a := lt_of_lt_of_le (zpow_pos (by norm_num) _) h7
  rcases lt_or_le a ((2 : ℚ) ^ (-6 : ℤ)) with hs | hs
  · rw [roundMag32_binade_neg_seven a h7 hs]
    have hx : ((10737418 : ℤ) : ℚ) + 1 / 2 < a * 2 ^ 30 := by
      have : tolerance32 * 2 ^ 30 < a * 2 ^ 30 :=
        mul_lt_mul_of_pos_right h (by norm_num)
      refine lt_of_le_of_lt ?_ this
      norm_num [tolerance32]
    have hr := lt_roundHalfEven_of_half_lt _ 10737418 hx
    have hr2 : (10737419 : ℚ) ≤ (roundHalfEven (a * 2 ^ 30) : ℚ) := by exact_mod_cast hr
    exact div_le_div_of_nonneg_right hr2 (by norm_num)
  · have hL := le_log_of_two_zpow_le a hpos (-6) hs
    have hr := two_zpow_le_roundMag32 a hpos (by omega)
    have hz : (2 : ℚ) ^ (-6 : ℤ) ≤ 2 ^ Int.log 2 a := zpow_le_zpow_right₀ (by norm_num) hL
    refine le_trans ?_ (hz.trans hr)
    norm_num

theorem near_zero_nan : near_zero FP.nan = false := by
  simp [near_zero, toFloat, FP.lt]

theorem near_zero_inf (n : Bool) : near_zero (FP.inf n) = false := by
  cases n <;> simp [near_zero, toFloat, FP.lt, FP.gt, FP.neg, lit_0_01]

/-- The test of the callback on a finite coordinate: it passes exactly up to `tolerance32`. -/
theorem near_zero_fin (q : ℚ) : near_zero (FP.fin q) = true ↔ |q| ≤ tolerance32 := by
  have hnn := roundMag32_nonneg |q| (abs_nonneg q)
  constructor
  · intro hz
    by_contra hcon
    have hlt : tolerance32 < |q| := lt_of_not_ge hcon
    have hr := le_roundMag32_of_tolerance_lt |q| hlt
    have hbig : (5764607523034235 : ℚ) / 2 ^ 59 < roundMag32 |q| :=
      lt_of_lt_of_le (by norm_num) hr
    unfold near_zero toFloat at hz
    simp only at hz
    split_ifs at hz with h1 h2
    · cases hq : decide (q < 0) <;> simp [FP.lt, FP.gt, FP.neg, lit_0_01, hq] at hz
    · simp only [FP.lt, FP.gt, FP.neg, lit_0_01, Bool.and_eq_true, decide_eq_true_eq] at hz
      linarith [hz.2]
    · simp only [FP.lt, FP.gt, FP.neg, lit_0_01, Bool.and_eq_true, decide_eq_true_eq] at hz
      linarith [hz.1]
  · intro hle
    have hr := roundMag32_le_of_le_tolerance |q| (abs_nonneg q) hle
    have hsmall : roundMag32 |q| < (5764607523034235 : ℚ) / 2 ^ 59 :=
      lt_of_le_of_lt hr (by norm_num)
    have hno : ¬ (2 : ℚ) ^ 128 ≤ roundMag32 |q| := by
      have : roundMag32 |q| < 2 ^ 128 := lt_of_le_of_lt hr (by norm_num)
      exact not_le.mpr this
    unfold near_zero toFloat
    simp only [if_neg hno]
    split_ifs with h2
    · simp only [FP.lt, FP.gt, FP.neg, lit_0_01, Bool.and_eq_true, decide_eq_true_eq]
      constructor <;> linarith
    · simp only [FP.lt, FP.gt, FP.neg, lit_0_01, Bool.and_eq_true, decide_eq_true_eq]
      constructor <;> linarith

/-! ## The callback and the wait loop -/

theorem callback_not_started (g : Globals) (image_msg : LogicalCameraImage)
    (h : g.conveyor_started = false) : logical_camera_callback g image_msg = g := by
  simp [logical_camera_callback, h]

theorem callback_started (b : Bool) (m : Model) (rest : List Model) :
    logical_camera_callback ⟨true, b⟩ ⟨m :: rest⟩ = ⟨true, b || near_zero m.z⟩ := by
  cases b <;> cases h : near_zero m.z <;> simp [logical_camera_callback, h]

theorem spinOnce_started (t : Tick) :
    spinOnce ⟨true, false⟩ t = ⟨true, detects t⟩ := by
  rcases t with _ | ⟨⟨_ | ⟨m, rest⟩⟩⟩
  · rfl
  · simp [spinOnce, detects, logical_camera_callback]
  · simp [spinOnce, detects, callback_started]

theorem wait_loop_box_set (g : Globals) (feed : List Tick) (h : g.box_under_camera = true) :
    wait_loop g feed = ⟨g, 0, true⟩ := by
  cases feed <;> simp [wait_loop, h]

theorem wait_loop_not_started (feed : List Tick) :
    wait_loop ⟨false, false⟩ feed = ⟨⟨false, false⟩, feed.length, false⟩ := by
  induction feed with
  | nil => rfl
  | cons t rest ih =>
    have hs : spinOnce ⟨false, false⟩ t = ⟨false, false⟩ := by
      cases t
      · rfl
      · exact callback_not_started _ _ rfl
    simp [wait_loop, hs, ih]

theorem wait_loop_no_detection (feed : List Tick) (h : ∀ t ∈ feed, detects t = false) :
    wait_loop ⟨true, false⟩ feed = ⟨⟨true, false⟩, feed.length, false⟩ := by
  induction feed with
  | nil => rfl
  | cons t rest ih =>
    have ht : detects t = false := h t (List.mem_cons_self _ _)
    have hrest : ∀ u ∈ rest, detects u = false := fun u hu => h u (List.mem_cons_of_mem _ hu)
    simp [wait_loop, spinOnce_started, ht, ih hrest]

theorem wait_loop_first_detection (pre post : List Tick) (t : Tick)
    (hpre : ∀ u ∈ pre, detects u = false) (ht : detects t = true) :
    wait_loop ⟨true, false⟩ (pre ++ t :: post) = ⟨⟨true, true⟩, pre.length + 1, true⟩ := by
  induction pre with
  | nil =>
    simp [wait_loop, spinOnce_started, ht, wait_loop_box_set]
  | cons u rest ih =>
    have hu : detects u = false := hpre u (List.mem_cons_self _ _)
    have hrest : ∀ v ∈ rest, detects v = false := fun v hv => hpre v (List.mem_cons_of_mem _ hv)
    simp [wait_loop, spinOnce_started, hu, ih hrest]

theorem wait_loop_exited_iff (feed : List Tick) :
    (wait_loop ⟨true, false⟩ feed).exited = feed.any detects := by
  induction feed with
  | nil => rfl
  | cons t rest ih =>
    cases ht : detects t
    · simp [wait_loop, spinOnce_started, ht, ih]
    · simp [wait_loop, spinOnce_started, ht, wait_loop_box_set]

theorem near_zero_iff_within (z : FP) : near_zero z = true ↔ within_tolerance32 z := by
  cases z with
  | nan => simp [near_zero_nan, within_tolerance32]
  | inf n => simp [near_zero_inf, within_tolerance32]
  | fin q => simpa [within_tolerance32] using near_zero_fin q

theorem gatewayCalls_main_start (env : Env) :
    gatewayCalls (main_start env) = [Request.trigger, Request.conveyor 100] := by
  unfold main_start start_competition gatewayCalls
  cases env.start_exists <;> cases env.start_success <;> cases env.conveyor_exists <;>
    cases env.conveyor_on_success <;> rfl

theorem gatewayCalls_main_finish (env : Env) :
    gatewayCalls (main_finish env)
      = [Request.conveyor 0, Request.conveyor 100, Request.drone ""] := by
  unfold main_finish gatewayCalls drone_srv_request
  cases env.conveyor_off_success <;> cases env.conveyor_resume_success <;>
    cases env.drone_exists <;> cases env.drone_success <;> rfl

theorem gatewayCalls_append (a b : List Event) :
    gatewayCalls (a ++ b) = gatewayCalls a ++ gatewayCalls b := by
  simp [gatewayCalls, List.filterMap_append]

theorem main_on_rejected (env : Env) (feed : List Tick) (h : env.conveyor_on_success = false) :
    main env feed = ⟨main_start env, ⟨false, false⟩, feed.length, Outcome.spinning⟩ := by
  simp [main, h, initial_globals, wait_loop_not_started]

theorem main_on_accepted (env : Env) (feed : List Tick) (h : env.conveyor_on_success = true) :
    main env feed =
      if (wait_loop ⟨true, false⟩ feed).exited then
        ⟨main_start env ++ main_finish env, (wait_loop ⟨true, false⟩ feed).globals,
          (wait_loop ⟨true, false⟩ feed).spins, Outcome.returned 0⟩
      else
        ⟨main_start env, (wait_loop ⟨true, false⟩ feed).globals,
          (wait_loop ⟨true, false⟩ feed).spins, Outcome.spinning⟩ := by
  simp [main, h, initial_globals]

theorem main_no_detection (env : Env) (feed : List Tick) (h : ∀ t ∈ feed, detects t = false) :
    main env feed
      = ⟨main_start env, ⟨env.conveyor_on_success, false⟩, feed.length, Outcome.spinning⟩ := by
  cases hon : env.conveyor_on_success
  · exact main_on_rejected env feed hon
  · rw [main_on_accepted env feed hon, wait_loop_no_detection feed h]
    simp

theorem main_first_detection (env : Env) (h : env.conveyor_on_success = true)
    (pre post : List Tick) (t : Tick)
    (hpre : ∀ u ∈ pre, detects u = false) (ht : detects t = true) :
    main env (pre ++ t :: post)
      = ⟨main_start env ++ main_finish env, ⟨true, true⟩, pre.length + 1, Outcome.returned 0⟩ := by
  rw [main_on_accepted env _ h, wait_loop_first_detection pre post t hpre ht]
  simp

theorem main_detection (env : Env) (h : env.conveyor_on_success = true) (feed : List Tick)
    (hd : feed.any detects = true) :
    (main env feed).trace = main_start env ++ main_finish env
      ∧ (main env feed).outcome = Outcome.returned 0 := by
  have hx := wait_loop_exited_iff feed
  rw [hd] at hx
  rw [main_on_accepted env _ h]
  simp [hx]

/-- The service calls of any run: either the run is still waiting, having made the start call
and the first conveyor call, or it returned, having made all five calls. -/
theorem gatewayCalls_main (env : Env) (feed : List Tick) :
    ((main env feed).outcome = Outcome.spinning
        ∧ gatewayCalls (main env feed).trace = [Request.trigger, Request.conveyor 100])
    ∨ ((main env feed).outcome = Outcome.returned 0
        ∧ env.conveyor_on_success = true
        ∧ gatewayCalls (main env feed).trace
            = [Request.trigger, Request.conveyor 100, Request.conveyor 0,
               Request.conveyor 100, Request.drone ""]) := by
  cases hon : env.conveyor_on_success
  · left
    rw [main_on_rejected env feed hon]
    exact ⟨rfl, gatewayCalls_main_start env⟩
  · rw [main_on_accepted env feed hon]
    cases hx : (wait_loop ⟨true, false⟩ feed).exited
    · left
      simp [gatewayCalls_main_start]
    · right
      simp [gatewayCalls_append, gatewayCalls_main_start, gatewayCalls_main_finish]

theorem detects_observation (z : FP) : detects (some ⟨[⟨z⟩]⟩) = near_zero z := rfl

theorem double_0_01_eq : double_0_01 = FP.fin (5764607523034235 / 2 ^ 59) := by
  norm_num [double_0_01, decode64]

theorem double_0_005_eq : double_0_005 = FP.fin (5764607523034235 / 2 ^ 60) := by
  norm_num [double_0_005, decode64]

theorem double_0_5_eq : double_0_5 = FP.fin (1 / 2) := by
  norm_num [double_0_5, decode64]

theorem double_0_2_eq : double_0_2 = FP.fin (3602879701896397 / 2 ^ 54) := by
  norm_num [double_0_2, decode64]

theorem double_0_009_eq : double_0_009 = FP.fin (5188146770730811 / 2 ^ 59) := by
  norm_num [double_0_009, decode64]

theorem double_0_3_eq : double_0_3 = FP.fin (5404319552844595 / 2 ^ 54) := by
  norm_num [double_0_3, decode64]

theorem near_zero_zero : near_zero (FP.fin 0) = true :=
  (near_zero_fin 0).mpr (by norm_num [tolerance32])

theorem near_zero_double_0_01 : near_zero double_0_01 = true := by
  rw [double_0_01_eq]
  exact (near_zero_fin _).mpr (by norm_num [tolerance32, abs_of_pos])

theorem near_zero_double_0_005 : near_zero double_0_005 = true := by
  rw [double_0_005_eq]
  exact (near_zero_fin _).mpr (by norm_num [tolerance32, abs_of_pos])

theorem near_zero_double_0_009 : near_zero double_0_009 = true := by
  rw [double_0_009_eq]
  exact (near_zero_fin _).mpr (by norm_num [tolerance32, abs_of_pos])

theorem near_zero_false_of_lt (q : ℚ) (h : tolerance32 < |q|) : near_zero (FP.fin q) = false := by
  cases hz : near_zero (FP.fin q)
  · rfl
  · exact absurd ((near_zero_fin q).mp hz) (not_le.mpr h)

theorem near_zero_double_0_5 : near_zero double_0_5 = false := by
  rw [double_0_5_eq]
  exact near_zero_false_of_lt _ (by norm_num [tolerance32, abs_of_pos])

theorem near_zero_double_0_2 : near_zero double_0_2 = false := by
  rw [double_0_2_eq]
  exact near_zero_false_of_lt _ (by norm_num [tolerance32, abs_of_pos])

theorem near_zero_double_0_3 : near_zero double_0_3 = false := by
  rw [double_0_3_eq]
  exact near_zero_false_of_lt _ (by norm_num [tolerance32, abs_of_pos])

theorem any_detects_zero : (observations [FP.fin 0]).any detects = true := by
  simp [observations, detects_observation, near_zero_zero]

theorem error_not_mem_main_start (env : Env) (hs : env.start_success = true)
    (hon : env.conveyor_on_success = true) (text : String) :
    Event.error text ∉ main_start env := by
  unfold main_start start_competition
  cases env.start_exists <;> cases env.conveyor_exists <;> simp [hs, hon]

theorem error_not_mem_main_finish (env : Env) (hoff : env.conveyor_off_success = true)
    (hres : env.conveyor_resume_success = true) (hd : env.drone_success = true)
    (text : String) : Event.error text ∉ main_finish env := by
  unfold main_finish
  cases env.drone_exists <;> simp [hoff, hres, hd]

theorem start_error_mem_main_start (env : Env) (hs : env.start_success = false) :
    Event.error ("Failed to start the competition: " ++ env.start_message) ∈ main_start env := by
  unfold main_start start_competition
  simp [hs]

theorem main_start_sublist_trace (env : Env) (feed : List Tick) (ev : Event)
    (h : ev ∈ main_start env) : ev ∈ (main env feed).trace := by
  have hmain : (main env feed).trace = main_start env
      ∨ (main env feed).trace = main_start env ++ main_finish env := by
    unfold main
    simp only
    split_ifs <;> simp
  rcases hmain with hm | hm <;> rw [hm]
  · exact h
  · exact List.mem_append_left _ h

/-- The service calls of a run depend on the environment only through the result of the
first conveyor call. -/
theorem gatewayCalls_main_congr (env env2 : Env) (feed : List Tick)
    (h : env.conveyor_on_success = env2.conveyor_on_success) :
    gatewayCalls (main env feed).trace = gatewayCalls (main env2 feed).trace := by
  cases hon : env.conveyor_on_success
  · have hon2 : env2.conveyor_on_success = false := by rw [← h, hon]
    rw [main_on_rejected env feed hon, main_on_rejected env2 feed hon2]
    simp [gatewayCalls_main_start]
  · have hon2 : env2.conveyor_on_success = true := by rw [← h, hon]
    rw [main_on_accepted env feed hon, main_on_accepted env2 feed hon2]
    cases (wait_loop ⟨true, false⟩ feed).exited <;>
      simp [gatewayCalls_append, gatewayCalls_main_start, gatewayCalls_main_finish]

/-- A finite value that the narrowing leaves as it is (a `float` value) and that passes the
test is below 1/100 in magnitude: no `float` lies between 1/100 and `tolerance32`. -/
theorem abs_lt_of_toFloat_fixed (q : ℚ) (hfix : toFloat (FP.fin q) = FP.fin q)
    (h : |q| ≤ tolerance32) : |q| < 1 / 100 := by
  have hr := roundMag32_le_of_le_tolerance |q| (abs_nonneg q) h
  have hno : ¬ (2 : ℚ) ^ 128 ≤ roundMag32 |q| := by
    have : roundMag32 |q| < 2 ^ 128 := lt_of_le_of_lt hr (by norm_num)
    exact not_le.mpr this
  unfold toFloat at hfix
  simp only [if_neg hno, FP.fin.injEq] at hfix
  have habs : roundMag32 |q| = |q| := by
    by_cases hq : q < 0
    · rw [if_pos hq] at hfix
      rw [abs_of_neg hq] at hfix ⊢
      linarith
    · rw [if_neg hq] at hfix
      rw [abs_of_nonneg (not_lt.mp hq)] at hfix ⊢
      exact hfix
  rw [habs] at hr
  exact lt_of_le_of_lt hr (by norm_num)

theorem roundHalfEven_intCast (n : ℤ) : roundHalfEven (n : ℚ) = n := by
  simp [roundHalfEven]

/-- The `float` next above 1/100, namely `10737419 / 2^30`, is left as it is by the narrowing. -/
theorem toFloat_float_above_0_01 :
    toFloat (FP.fin (10737419 / 2 ^ 30)) = FP.fin (10737419 / 2 ^ 30) := by
  have h1 : (2 : ℚ) ^ (-7 : ℤ) ≤ 10737419 / 2 ^ 30 := by norm_num
  have h2 : (10737419 / 2 ^ 30 : ℚ) < 2 ^ (-6 : ℤ) := by norm_num
  have hr := roundMag32_binade_neg_seven _ h1 h2
  have hx : (10737419 / 2 ^ 30 : ℚ) * 2 ^ 30 = ((10737419 : ℤ) : ℚ) := by norm_num
  rw [hx, roundHalfEven_intCast] at hr
  have habs : |(10737419 / 2 ^ 30 : ℚ)| = 10737419 / 2 ^ 30 := abs_of_pos (by norm_num)
  unfold toFloat
  simp only [habs, hr]
  norm_num

/-! ## The claims -/

/-- C1, counterexample: with the start call rejected and a box then seen at `z = 0`, the
run still issues the three conveyor commands and the dispatch call. -/
theorem C1_counterexample :
    ({ env_all_ok with start_success := false } : Env).start_success = false
    ∧ gatewayCalls (main { env_all_ok with start_success := false }
        (observations [FP.fin 0])).trace
      = [Request.trigger, Request.conveyor 100, Request.conveyor 0, Request.conveyor 100,
         Request.drone ""] := by
  refine ⟨rfl, ?_⟩
  rw [(main_detection _ rfl _ any_detects_zero).1, gatewayCalls_append,
    gatewayCalls_main_start, gatewayCalls_main_finish]
  rfl

/-- C1, amended: when the start call reports failure, `main` only logs the reason and goes
on as after a successful start: the error is in the trace, the next service call is the
conveyor command with power 100, and the service calls of the run are those of the run in
which the start succeeded. -/
theorem C1_start_failure_is_only_logged (env : Env) (feed : List Tick)
    (h : env.start_success = false) :
    Event.error ("Failed to start the competition: " ++ env.start_message)
        ∈ (main env feed).trace
    ∧ (gatewayCalls (main env feed).trace).take 2 = [Request.trigger, Request.conveyor 100]
    ∧ gatewayCalls (main env feed).trace
        = gatewayCalls (main { env with start_success := true } feed).trace := by
  refine ⟨main_start_sublist_trace env feed _ (start_error_mem_main_start env h), ?_, ?_⟩
  · rcases gatewayCalls_main env feed with ⟨_, hc⟩ | ⟨_, _, hc⟩ <;> rw [hc] <;> rfl
  · exact gatewayCalls_main_congr env _ feed rfl

/-- C1, witness: the amended statement at a run whose start call is rejected. -/
theorem C1_start_failure_is_only_logged_witness :
    ({ env_all_ok with start_success := false } : Env).start_success = false
    ∧ Event.error "Failed to start the competition: "
        ∈ (main { env_all_ok with start_success := false } (observations [FP.fin 0])).trace
    ∧ (gatewayCalls (main { env_all_ok with start_success := false }
          (observations [FP.fin 0])).trace).take 2
        = [Request.trigger, Request.conveyor 100] :=
  ⟨rfl,
   (C1_start_failure_is_only_logged { env_all_ok with start_success := false }
      (observations [FP.fin 0]) rfl).1,
   (C1_start_failure_is_only_logged { env_all_ok with start_success := false }
      (observations [FP.fin 0]) rfl).2.1⟩

/-- C2, counterexample: the conveyor-off call and the second conveyor-on call are both
rejected, a box is seen at `z = 0`, and the dispatch call is issued all the same. -/
theorem C2_counterexample :
    ({ env_all_ok with conveyor_off_success := false,
                       conveyor_resume_success := false } : Env).conveyor_off_success = false
    ∧ Request.drone "" ∈ gatewayCalls
        (main { env_all_ok with conveyor_off_success := false, conveyor_resume_success := false }
          (observations [FP.fin 0])).trace := by
  refine ⟨rfl, ?_⟩
  rw [(main_detection _ rfl _ any_detects_zero).1, gatewayCalls_append,
    gatewayCalls_main_start, gatewayCalls_main_finish]
  simp

/-- C2, amended: the dispatch call is issued only if the first conveyor-on call (power 100)
returned success, and then only after the three conveyor commands on, off, on have been
issued; the results of the conveyor-off call and of the second conveyor-on call are only
logged and change nothing in the service calls of the run. -/
theorem C2_dispatch_only_after_first_conveyor_on_accepted (env : Env) (feed : List Tick)
    (shipment : String)
    (h : Request.drone shipment ∈ gatewayCalls (main env feed).trace) :
    env.conveyor_on_success = true
    ∧ gatewayCalls (main env feed).trace
        = [Request.trigger, Request.conveyor 100, Request.conveyor 0, Request.conveyor 100,
           Request.drone ""]
    ∧ ∀ off resume : Bool,
        gatewayCalls (main { env with conveyor_off_success := off,
                                      conveyor_resume_success := resume } feed).trace
          = gatewayCalls (main env feed).trace := by
  refine ⟨?_, ?_, fun off resume => gatewayCalls_main_congr _ env feed rfl⟩
  · rcases gatewayCalls_main env feed with ⟨_, hc⟩ | ⟨_, hon, _⟩
    · rw [hc] at h
      simp at h
    · exact hon
  · rcases gatewayCalls_main env feed with ⟨_, hc⟩ | ⟨_, _, hc⟩
    · rw [hc] at h
      simp at h
    · exact hc

theorem drone_mem_nominal_calls :
    Request.drone "" ∈ gatewayCalls (main env_all_ok (observations [FP.fin 0])).trace := by
  rw [(main_detection _ rfl _ any_detects_zero).1, gatewayCalls_append,
    gatewayCalls_main_start, gatewayCalls_main_finish]
  simp

/-- C2, witness: the amended statement at a run that reaches the dispatch call. -/
theorem C2_dispatch_only_after_first_conveyor_on_accepted_witness :
    Request.drone "" ∈ gatewayCalls (main env_all_ok (observations [FP.fin 0])).trace
    ∧ env_all_ok.conveyor_on_success = true
    ∧ gatewayCalls (main env_all_ok (observations [FP.fin 0])).trace
        = [Request.trigger, Request.conveyor 100, Request.conveyor 0, Request.conveyor 100,
           Request.drone ""] :=
  ⟨drone_mem_nominal_calls,
   (C2_dispatch_only_after_first_conveyor_on_accepted env_all_ok (observations [FP.fin 0]) ""
      drone_mem_nominal_calls).1,
   (C2_dispatch_only_after_first_conveyor_on_accepted env_all_ok (observations [FP.fin 0]) ""
      drone_mem_nominal_calls).2.1⟩

/-- C3, counterexample: the message coordinate is the `double` `0.01` itself, which is not
below 1/100 in magnitude; narrowed to `float` it is `10737418 / 2^30`, below the `double`
literal `0.01`, and the callback sets the flag. -/
theorem C3_counterexample :
    double_0_01 = FP.fin (5764607523034235 / 2 ^ 59)
    ∧ ¬ |(5764607523034235 / 2 ^ 59 : ℚ)| < 1 / 100
    ∧ toFloat double_0_01 = FP.fin (10737418 / 2 ^ 30)
    ∧ logical_camera_callback ⟨true, false⟩ ⟨[⟨double_0_01⟩]⟩ = ⟨true, true⟩ := by
  refine ⟨double_0_01_eq, by norm_num [abs_of_pos], ?_, ?_⟩
  · rw [double_0_01_eq]
    have h1 : (2 : ℚ) ^ (-7 : ℤ) ≤ 5764607523034235 / 2 ^ 59 := by norm_num
    have h2 : (5764607523034235 / 2 ^ 59 : ℚ) < 2 ^ (-6 : ℤ) := by norm_num
    have hr := roundMag32_binade_neg_seven _ h1 h2
    have hx : (5764607523034235 / 2 ^ 59 : ℚ) * 2 ^ 30 = 5764607523034235 / 2 ^ 29 := by
      norm_num
    have hround : roundHalfEven (5764607523034235 / 2 ^ 29) = 10737418 := by
      have hfl : ⌊(5764607523034235 / 2 ^ 29 : ℚ)⌋ = 10737418 := by
        rw [Int.floor_eq_iff]
        constructor <;> norm_num
      unfold roundHalfEven
      simp only [hfl]
      norm_num
    rw [hx, hround] at hr
    have habs : |(5764607523034235 / 2 ^ 59 : ℚ)| = 5764607523034235 / 2 ^ 59 :=
      abs_of_pos (by norm_num)
    unfold toFloat
    simp only [habs, hr]
    norm_num
  · rw [callback_started, near_zero_double_0_01]
    rfl

/-- C3, amended: while the conveyor is running and the batch is non-empty, the callback
tests the first model's coordinate after narrowing it to `float`.  Every coordinate c with
|c| < 0.01 sets the flag, and so does every c with |c| <= 21474837 / 2^31 (about
0.0100000002, which includes the `double` 0.01); every c of larger magnitude, and every
NaN or infinity, leaves the globals as they were.  For a coordinate that is already a
`float` value the bound is 0.01 itself: with |c| >= 0.01 the globals are left as they were. -/
theorem C3_callback_tolerance_after_narrowing (g : Globals) (rest : List Model)
    (hg : g.conveyor_started = true) :
    (∀ q : ℚ, |q| < 1 / 100 →
        logical_camera_callback g ⟨⟨FP.fin q⟩ :: rest⟩ = { g with box_under_camera := true })
    ∧ (∀ q : ℚ, |q| ≤ tolerance32 →
        logical_camera_callback g ⟨⟨FP.fin q⟩ :: rest⟩ = { g with box_under_camera := true })
    ∧ (∀ q : ℚ, tolerance32 < |q| →
        logical_camera_callback g ⟨⟨FP.fin q⟩ :: rest⟩ = g)
    ∧ logical_camera_callback g ⟨⟨FP.nan⟩ :: rest⟩ = g
    ∧ (∀ n : Bool, logical_camera_callback g ⟨⟨FP.inf n⟩ :: rest⟩ = g)
    ∧ ∀ q : ℚ, toFloat (FP.fin q) = FP.fin q → 1 / 100 ≤ |q| →
        logical_camera_callback g ⟨⟨FP.fin q⟩ :: rest⟩ = g := by
  have hset : ∀ q : ℚ, |q| ≤ tolerance32 →
      logical_camera_callback g ⟨⟨FP.fin q⟩ :: rest⟩ = { g with box_under_camera := true } := by
    intro q hq
    simp [logical_camera_callback, hg, (near_zero_fin q).mpr hq]
  have hkeep : ∀ q : ℚ, tolerance32 < |q| →
      logical_camera_callback g ⟨⟨FP.fin q⟩ :: rest⟩ = g := by
    intro q hq
    simp [logical_camera_callback, hg, near_zero_false_of_lt q hq]
  refine ⟨fun q hq => hset q (hq.le.trans (by norm_num [tolerance32])), hset, hkeep,
    ?_, ?_, ?_⟩
  · simp [logical_camera_callback, hg, near_zero_nan]
  · intro n
    simp [logical_camera_callback, hg, near_zero_inf]
  · intro q hfix hq
    apply hkeep
    by_contra hcon
    exact absurd (abs_lt_of_toFloat_fixed q hfix (not_lt.mp hcon)) (not_lt.mpr hq)

/-- C3, witness: the amended statement with the conveyor running, at a box at `z = 1/200`
(flag set), at a box at `z = 1/50` (globals unchanged) and at the `float` value next above
1/100 (globals unchanged). -/
theorem C3_callback_tolerance_after_narrowing_witness :
    (⟨true, false⟩ : Globals).conveyor_started = true
    ∧ logical_camera_callback ⟨true, false⟩ ⟨[⟨FP.fin (1 / 200)⟩]⟩ = ⟨true, true⟩
    ∧ logical_camera_callback ⟨true, false⟩ ⟨[⟨FP.fin (1 / 50)⟩]⟩ = ⟨true, false⟩
    ∧ logical_camera_callback ⟨true, false⟩ ⟨[⟨FP.fin (10737419 / 2 ^ 30)⟩]⟩
        = ⟨true, false⟩ :=
  ⟨rfl,
   (C3_callback_tolerance_after_narrowing ⟨true, false⟩ [] rfl).1 (1 / 200)
      (by norm_num [abs_of_pos]),
   (C3_callback_tolerance_after_narrowing ⟨true, false⟩ [] rfl).2.2.1 (1 / 50)
      (by norm_num [tolerance32, abs_of_pos]),
   (C3_callback_tolerance_after_narrowing ⟨true, false⟩ [] rfl).2.2.2.2.2 (10737419 / 2 ^ 30)
      toFloat_float_above_0_01 (by norm_num [abs_of_pos])⟩

/-- C4: when every service call succeeds and some tick of the feed makes the callback detect
the box, the service calls of the run are exactly the start call, conveyor power 100,
conveyor power 0, conveyor power 100 and one dispatch call, in that order; `main` returns 0
having logged that the drone was started, and no error is logged. -/
theorem C4_nominal_run_trace (env : Env) (feed : List Tick)
    (hstart : env.start_success = true) (hon : env.conveyor_on_success = true)
    (hoff : env.conveyor_off_success = true) (hres : env.conveyor_resume_success = true)
    (hdrone : env.drone_success = true) (hdet : feed.any detects = true) :
    gatewayCalls (main env feed).trace
        = [Request.trigger, Request.conveyor 100, Request.conveyor 0, Request.conveyor 100,
           Request.drone ""]
    ∧ (main env feed).outcome = Outcome.returned 0
    ∧ Event.info "Drone started!" ∈ (main env feed).trace
    ∧ ∀ text : String, Event.error text ∉ (main env feed).trace := by
  obtain ⟨htr, hout⟩ := main_detection env hon feed hdet
  refine ⟨?_, hout, ?_, ?_⟩
  · rw [htr, gatewayCalls_append, gatewayCalls_main_start, gatewayCalls_main_finish]
    rfl
  · rw [htr]
    apply List.mem_append_right
    unfold main_finish
    simp [hdrone]
  · intro text
    rw [htr, List.mem_append]
    rintro (h | h)
    · exact error_not_mem_main_start env hstart hon text h
    · exact error_not_mem_main_finish env hoff hres hdrone text h

/-- C4, witness: the nominal run with every service accepting and a box seen at `z = 0`. -/
theorem C4_nominal_run_trace_witness :
    (observations [FP.fin 0]).any detects = true
    ∧ gatewayCalls (main env_all_ok (observations [FP.fin 0])).trace
        = [Request.trigger, Request.conveyor 100, Request.conveyor 0, Request.conveyor 100,
           Request.drone ""]
    ∧ (main env_all_ok (observations [FP.fin 0])).outcome = Outcome.returned 0 :=
  ⟨any_detects_zero,
   (C4_nominal_run_trace env_all_ok (observations [FP.fin 0]) rfl rfl rfl rfl rfl
      any_detects_zero).1,
   (C4_nominal_run_trace env_all_ok (observations [FP.fin 0]) rfl rfl rfl rfl rfl
      any_detects_zero).2.1⟩

/-- C5, the code at the failing input: the drone service is not reachable when `main` asks
(and so rejects the call); `exists()` answers false, `main` does not wait and issues the
dispatch call at once.  When the service is reachable, `main` does wait. -/
theorem C5_dispatch_wait_is_inverted :
    (main { env_all_ok with drone_exists := false, drone_success := false }
        (observations [FP.fin 0])).trace
        = main_start env_all_ok
          ++ [Event.info "Stopping the conveyor belt...",
              Event.call (Request.conveyor 0),
              Event.info "Conveyor belt stopped!",
              Event.info "Waiting five seconds.",
              Event.sleep 5,
              Event.info "Resuming conveyor belt until an order has arrived for drone.",
              Event.call (Request.conveyor 100),
              Event.info "Conveyor belt stopped!",
              Event.info "Waiting for 15 seconds for drone can pick up shipment.",
              Event.sleep 15,
              Event.info "Sending drone to pick up shipment.",
              Event.exists_ Service.drone false,
              Event.info "Requesting drone...",
              Event.call (Request.drone ""),
              Event.error "Failed to start the drone.",
              Event.info "Waiting for drone to collect shipment.",
              Event.sleep 15,
              Event.info "Success."]
    ∧ Event.waitForExistence Service.drone
        ∉ (main { env_all_ok with drone_exists := false, drone_success := false }
            (observations [FP.fin 0])).trace
    ∧ Event.waitForExistence Service.drone
        ∈ (main env_all_ok (observations [FP.fin 0])).trace := by
  have h1 := (main_detection { env_all_ok with drone_exists := false, drone_success := false }
    rfl _ any_detects_zero).1
  have h2 := (main_detection env_all_ok rfl _ any_detects_zero).1
  refine ⟨?_, ?_, ?_⟩
  · rw [h1]
    rfl
  · rw [h1]
    simp [main_start, main_finish, start_competition, env_all_ok, drone_srv_request]
  · rw [h2]
    simp [main_start, main_finish, start_competition, env_all_ok, drone_srv_request]

theorem detects_observations_false (zs : List FP) (h : ∀ c ∈ zs, ¬ within_tolerance32 c) :
    ∀ t ∈ observations zs, detects t = false := by
  intro t ht
  simp only [observations, List.mem_map] at ht
  obtain ⟨c, hc, rfl⟩ := ht
  rw [detects_observation]
  cases hz : near_zero c
  · rfl
  · exact absurd ((near_zero_iff_within c).mp hz) (h c hc)

theorem observations_append (pre post : List FP) (z : FP) :
    observations (pre ++ z :: post)
      = observations pre ++ some ⟨[⟨z⟩]⟩ :: observations post := by
  simp [observations]

/-- C6, counterexample: the feed is the `double` 0.01 followed by the `double` 0.005.  The
first observation with |c| < 0.01 is the second one, yet the wait loop is left after a
single `spinOnce`: the first observation already fires. -/
theorem C6_counterexample :
    double_0_01 = FP.fin (5764607523034235 / 2 ^ 59)
    ∧ ¬ |(5764607523034235 / 2 ^ 59 : ℚ)| < 1 / 100
    ∧ double_0_005 = FP.fin (5764607523034235 / 2 ^ 60)
    ∧ |(5764607523034235 / 2 ^ 60 : ℚ)| < 1 / 100
    ∧ (main env_all_ok (observations [double_0_01, double_0_005])).spins = 1
    ∧ (main env_all_ok (observations [double_0_01, double_0_005])).outcome
        = Outcome.returned 0 := by
  refine ⟨double_0_01_eq, by norm_num [abs_of_pos], double_0_005_eq,
    by norm_num [abs_of_pos], ?_, ?_⟩
  · have h := main_first_detection env_all_ok rfl [] (observations [double_0_005])
      (some ⟨[⟨double_0_01⟩]⟩) (by simp) (by rw [detects_observation, near_zero_double_0_01])
    have hf : observations [double_0_01, double_0_005]
        = [] ++ some ⟨[⟨double_0_01⟩]⟩ :: observations [double_0_005] := rfl
    rw [hf, h]
    rfl
  · have h := main_first_detection env_all_ok rfl [] (observations [double_0_005])
      (some ⟨[⟨double_0_01⟩]⟩) (by simp) (by rw [detects_observation, near_zero_double_0_01])
    have hf : observations [double_0_01, double_0_005]
        = [] ++ some ⟨[⟨double_0_01⟩]⟩ :: observations [double_0_005] := rfl
    rw [hf, h]

/-- C6, amended: for every sequence of single-observation batches handled while the conveyor
is running, detection fires at the first observation whose coordinate is finite and of
magnitude at most 21474837 / 2^31 (the tolerance after narrowing to `float`; every c with
|c| < 0.01 qualifies): the wait loop is left after exactly that `spinOnce` and not earlier,
`main` goes on to return, and exactly one conveyor command with power 0 is issued.  For the
sequence 0.5, 0.2, 0.009, 0.3 detection fires on the third observation. -/
theorem C6_detection_at_first_observation_in_tolerance (env : Env) (pre post : List FP)
    (z : FP) (hon : env.conveyor_on_success = true)
    (hpre : ∀ c ∈ pre, ¬ within_tolerance32 c) (hz : within_tolerance32 z) :
    (main env (observations (pre ++ z :: post))).spins = pre.length + 1
    ∧ (main env (observations (pre ++ z :: post))).outcome = Outcome.returned 0
    ∧ (gatewayCalls (main env (observations (pre ++ z :: post))).trace).count
        (Request.conveyor 0) = 1
    ∧ (main env (observations pre)).outcome = Outcome.spinning
    ∧ (main env (observations pre)).spins = pre.length
    ∧ (∀ q : ℚ, |q| < 1 / 100 → within_tolerance32 (FP.fin q))
    ∧ (main env (observations [double_0_5, double_0_2, double_0_009, double_0_3])).spins
        = 3 := by
  have hdz : detects (some ⟨[⟨z⟩]⟩) = true := by
    rw [detects_observation]
    exact (near_zero_iff_within z).mpr hz
  have hrun := main_first_detection env hon (observations pre) (observations post)
    (some ⟨[⟨z⟩]⟩) (detects_observations_false pre hpre) hdz
  have hlen : (observations pre).length = pre.length := by simp [observations]
  have hwait := main_no_detection env (observations pre) (detects_observations_false pre hpre)
  rw [observations_append, hrun, hwait, hlen]
  refine ⟨rfl, rfl, ?_, rfl, rfl, ?_, ?_⟩
  · simp only [gatewayCalls_append, gatewayCalls_main_start, gatewayCalls_main_finish]
    decide
  · intro q hq
    exact hq.le.trans (by norm_num [tolerance32])
  · have hscen := main_first_detection env hon (observations [double_0_5, double_0_2])
      (observations [double_0_3]) (some ⟨[⟨double_0_009⟩]⟩)
      (by
        intro u hu
        simp only [observations, List.map_cons, List.map_nil, List.mem_cons,
          List.mem_singleton, List.not_mem_nil, or_false] at hu
        rcases hu with rfl | rfl
        · rw [detects_observation, near_zero_double_0_5]
        · rw [detects_observation, near_zero_double_0_2])
      (by rw [detects_observation, near_zero_double_0_009])
    have hf : observations [double_0_5, double_0_2, double_0_009, double_0_3]
        = observations [double_0_5, double_0_2]
          ++ some ⟨[⟨double_0_009⟩]⟩ :: observations [double_0_3] := rfl
    rw [hf, hscen]
    rfl

theorem scenario_pre_outside :
    ∀ c ∈ [double_0_5, double_0_2], ¬ within_tolerance32 c := by
  intro c hc
  simp only [List.mem_cons, List.mem_singleton, List.not_mem_nil, or_false] at hc
  rcases hc with rfl | rfl
  · rw [double_0_5_eq]
    norm_num [within_tolerance32, tolerance32, abs_of_pos]
  · rw [double_0_2_eq]
    norm_num [within_tolerance32, tolerance32, abs_of_pos]

theorem scenario_hit_inside : within_tolerance32 double_0_009 := by
  rw [double_0_009_eq]
  norm_num [within_tolerance32, tolerance32, abs_of_pos]

/-- C6, witness: the amended statement on the feed 0.5, 0.2, 0.009, 0.3 of the scenario. -/
theorem C6_detection_at_first_observation_in_tolerance_witness :
    (∀ c ∈ [double_0_5, double_0_2], ¬ within_tolerance32 c)
    ∧ within_tolerance32 double_0_009
    ∧ (main env_all_ok
        (observations ([double_0_5, double_0_2] ++ double_0_009 :: [double_0_3]))).spins
        = [double_0_5, double_0_2].length + 1
    ∧ (main env_all_ok
        (observations ([double_0_5, double_0_2] ++ double_0_009 :: [double_0_3]))).outcome
        = Outcome.returned 0 :=
  ⟨scenario_pre_outside, scenario_hit_inside,
   (C6_detection_at_first_observation_in_tolerance env_all_ok [double_0_5, double_0_2]
      [double_0_3] double_0_009 rfl scenario_pre_outside scenario_hit_inside).1,
   (C6_detection_at_first_observation_in_tolerance env_all_ok [double_0_5, double_0_2]
      [double_0_3] double_0_009 rfl scenario_pre_outside scenario_hit_inside).2.1⟩

/-- C7: a camera message handled while `conveyor_started` is false leaves the globals, and so
`box_under_camera`, unchanged, whatever models and coordinates it carries. -/
theorem C7_callback_ignores_before_conveyor_on (g : Globals) (image_msg : LogicalCameraImage)
    (h : g.conveyor_started = false) :
    logical_camera_callback g image_msg = g
    ∧ (logical_camera_callback g image_msg).box_under_camera = g.box_under_camera := by
  rw [callback_not_started g image_msg h]
  exact ⟨rfl, rfl⟩

/-- C7, witness: a box exactly at `z = 0` seen before the conveyor was commanded on. -/
theorem C7_callback_ignores_before_conveyor_on_witness :
    (⟨false, false⟩ : Globals).conveyor_started = false
    ∧ logical_camera_callback ⟨false, false⟩ ⟨[⟨FP.fin 0⟩]⟩ = ⟨false, false⟩ :=
  ⟨rfl, (C7_callback_ignores_before_conveyor_on ⟨false, false⟩ ⟨[⟨FP.fin 0⟩]⟩ rfl).1⟩

theorem callback_empty (g : Globals) (image_msg : LogicalCameraImage)
    (h : image_msg.models = []) : logical_camera_callback g image_msg = g := by
  unfold logical_camera_callback
  rw [h]
  simp

theorem foldl_callback_empty (msgs : List LogicalCameraImage) (g : Globals)
    (h : ∀ m ∈ msgs, m.models = []) : msgs.foldl logical_camera_callback g = g := by
  induction msgs generalizing g with
  | nil => rfl
  | cons m rest ih =>
    rw [List.foldl_cons, callback_empty g m (h m (List.mem_cons_self _ _))]
    exact ih g (fun m2 hm2 => h m2 (List.mem_cons_of_mem _ hm2))

/-- C8: camera messages with an empty models list never set the flag.  Starting from
`box_under_camera = false`, after any finite sequence of them the flag is still false,
with the conveyor running or not; a run of `main` fed only such messages is still in its
wait loop, has called `spinOnce` once per message, and has issued no conveyor-off command. -/
theorem C8_empty_batches_never_detect (g : Globals) (msgs : List LogicalCameraImage) (env : Env)
    (hg : g.box_under_camera = false) (hempty : ∀ m ∈ msgs, m.models = []) :
    (msgs.foldl logical_camera_callback g).box_under_camera = false
    ∧ (main env (msgs.map some)).outcome = Outcome.spinning
    ∧ (main env (msgs.map some)).globals.box_under_camera = false
    ∧ (main env (msgs.map some)).spins = msgs.length
    ∧ Request.conveyor 0 ∉ gatewayCalls (main env (msgs.map some)).trace := by
  have hfeed : ∀ t ∈ msgs.map some, detects t = false := by
    intro t ht
    simp only [List.mem_map] at ht
    obtain ⟨m, hm, rfl⟩ := ht
    simp [detects, hempty m hm]
  rw [foldl_callback_empty msgs g hempty, main_no_detection env _ hfeed]
  refine ⟨hg, rfl, rfl, by simp, ?_⟩
  rw [gatewayCalls_main_start]
  decide

theorem three_empty_batches :
    ∀ m ∈ ([⟨[]⟩, ⟨[]⟩, ⟨[]⟩] : List LogicalCameraImage), m.models = [] := by
  intro m hm
  simp only [List.mem_cons, List.mem_singleton, List.not_mem_nil, or_false] at hm
  rcases hm with rfl | rfl | rfl <;> rfl

/-- C8, witness: three empty batches while the conveyor is running. -/
theorem C8_empty_batches_never_detect_witness :
    (∀ m ∈ ([⟨[]⟩, ⟨[]⟩, ⟨[]⟩] : List LogicalCameraImage), m.models = [])
    ∧ (([⟨[]⟩, ⟨[]⟩, ⟨[]⟩] : List LogicalCameraImage).foldl logical_camera_callback
        ⟨true, false⟩).box_under_camera = false
    ∧ (main env_all_ok (([⟨[]⟩, ⟨[]⟩, ⟨[]⟩] : List LogicalCameraImage).map some)).outcome
        = Outcome.spinning :=
  ⟨three_empty_batches,
   (C8_empty_batches_never_detect ⟨true, false⟩ [⟨[]⟩, ⟨[]⟩, ⟨[]⟩] env_all_ok rfl
      three_empty_batches).1,
   (C8_empty_batches_never_detect ⟨true, false⟩ [⟨[]⟩, ⟨[]⟩, ⟨[]⟩] env_all_ok rfl
      three_empty_batches).2.1⟩

/-- C9, the code at the failing input: in the run where every call succeeds and a box is seen
at `z = 0`, the one dispatch request carries the empty `shipment_type`; no request with
`shipment_type = "order_0_shipment_0"` is sent.  The same holds in every run. -/
theorem C9_dispatch_identifier_is_empty :
    gatewayCalls (main env_all_ok (observations [FP.fin 0])).trace
        = [Request.trigger, Request.conveyor 100, Request.conveyor 0, Request.conveyor 100,
           Request.drone ""]
    ∧ Request.drone "order_0_shipment_0"
        ∉ gatewayCalls (main env_all_ok (observations [FP.fin 0])).trace
    ∧ ∀ (env : Env) (feed : List Tick) (shipment : String),
        Request.drone shipment ∈ gatewayCalls (main env feed).trace → shipment = "" := by
  have hgen : ∀ (env : Env) (feed : List Tick) (shipment : String),
      Request.drone shipment ∈ gatewayCalls (main env feed).trace → shipment = "" := by
    intro env feed shipment h
    rcases gatewayCalls_main env feed with ⟨_, hc⟩ | ⟨_, _, hc⟩
    · rw [hc] at h
      simp at h
    · rw [hc] at h
      simpa using h
  have hcalls : gatewayCalls (main env_all_ok (observations [FP.fin 0])).trace
      = [Request.trigger, Request.conveyor 100, Request.conveyor 0, Request.conveyor 100,
         Request.drone ""] := by
    rw [(main_detection _ rfl _ any_detects_zero).1, gatewayCalls_append,
      gatewayCalls_main_start, gatewayCalls_main_finish]
    rfl
  refine ⟨hcalls, ?_, hgen⟩
  intro h
  have := hgen _ _ _ h
  exact absurd this (by decide)

/-- C10: if the first conveyor-on call is rejected, `conveyor_started` stays false and no
feed ever sets `box_under_camera`: after any finite feed the run is still in the wait loop,
every tick has been consumed by a `spinOnce`, the failure has been logged, and the only
service calls made are the start call and the first conveyor command. -/
theorem C10_rejected_conveyor_on_blocks_the_run (env : Env) (feed : List Tick)
    (h : env.conveyor_on_success = false) :
    (main env feed).outcome = Outcome.spinning
    ∧ (main env feed).globals = ⟨false, false⟩
    ∧ (main env feed).spins = feed.length
    ∧ gatewayCalls (main env feed).trace = [Request.trigger, Request.conveyor 100]
    ∧ Event.error "Failed to start the conveyor belt." ∈ (main env feed).trace := by
  rw [main_on_rejected env feed h]
  refine ⟨rfl, rfl, rfl, gatewayCalls_main_start env, ?_⟩
  unfold main_start
  simp [h]

/-- C10, witness: the first conveyor call is rejected and a box then passes `z = 0`. -/
theorem C10_rejected_conveyor_on_blocks_the_run_witness :
    ({ env_all_ok with conveyor_on_success := false } : Env).conveyor_on_success = false
    ∧ (main { env_all_ok with conveyor_on_success := false }
        (observations [FP.fin 0])).outcome = Outcome.spinning
    ∧ gatewayCalls (main { env_all_ok with conveyor_on_success := false }
        (observations [FP.fin 0])).trace = [Request.trigger, Request.conveyor 100] :=
  ⟨rfl,
   (C10_rejected_conveyor_on_blocks_the_run { env_all_ok with conveyor_on_success := false }
      (observations [FP.fin 0]) rfl).1,
   (C10_rejected_conveyor_on_blocks_the_run { env_all_ok with conveyor_on_success := false }
      (observations [FP.fin 0]) rfl).2.2.2.1⟩

end Ps6Ariac
